import Mathlib

/-!
Verification of the small-db distributed SQL node against its
natural-language specification.

Each subsystem named by a claim is shallowly embedded from the C++
sources: pure functions become Lean functions, the protobuf map of the
gossip store becomes an extensional partial map, statuses become an
explicit status type.  The per-key bodies of the gossip reconciliation
loops commute across distinct keys, so the unordered_map iteration is
modelled pointwise.
-/

namespace SmallDB

/-- absl status codes used by the embedded components. -/
inductive StatusCode where
  | ok
  | alreadyExists
  | internal
  | notFound
  | unimplemented
  | invalidArgument
deriving Repr, DecidableEq

/-- An absl::Status: a code plus a message (empty for OkStatus). -/
structure Status where
  code : StatusCode
  message : String
deriving Repr, DecidableEq

/-- absl::OkStatus(). -/
def okStatus : Status := { code := .ok, message := "" }

namespace Gossip

/-- A gossip store entry (src/gossip/gossip.pb: message Entry).
value is an opaque byte string, last_update the producer's wall-clock
timestamp in milliseconds since epoch. -/
structure Entry where
  value : String
  last_update : Nat
deriving Repr, DecidableEq

/-- The protobuf map of small::gossip::Entries, modelled extensionally:
each key holds at most one entry. -/
def EntriesMap : Type := String → Option Entry

/-- Step 1 of GossipServer::update (src/gossip/gossip.cc lines 292-311),
effect on the store at one key: when the peer has the key, a strictly
newer peer entry overwrites the local value and last_update; when the
key is absent locally the peer entry is inserted; otherwise the local
entry is untouched. -/
def step1Store (store peer : EntriesMap) (k : String) : Option Entry :=
  match peer k with
  | some p =>
    match store k with
    | some s =>
      if s.last_update < p.last_update then
        some { value := p.value, last_update := p.last_update }
      else
        some s
    | none => some p
  | none => store k

/-- Step 1 of GossipServer::update, contribution to self_newer at one
key: the local entry is added exactly when the key exists on both sides
and the local entry is not older than the peer entry. -/
def step1Newer (store peer : EntriesMap) (k : String) : Option Entry :=
  match peer k, store k with
  | some p, some s =>
    if s.last_update < p.last_update then none else some s
  | _, _ => none

/-- Step 2 of GossipServer::update (src/gossip/gossip.cc lines 313-326),
run over the already-mutated store: entries whose key the peer lacks are
added to self_newer, and shared keys are added when the (post step 1)
local entry is strictly newer than the peer entry. -/
def step2Newer (store peer : EntriesMap) (k : String) : Option Entry :=
  match step1Store store peer k with
  | some s =>
    match peer k with
    | some p => if s.last_update > p.last_update then some s else none
    | none => some s
  | none => none

/-- The store after GossipServer::update(peer_entries) returns. -/
def updateStore (store peer : EntriesMap) : EntriesMap :=
  fun k => step1Store store peer k

/-- The self_newer map returned by GossipServer::update.  The protobuf
map insert keeps an existing entry for the key, so a step-1 insertion
wins over a step-2 insertion at the same key. -/
def updateSelfNewer (store peer : EntriesMap) (k : String) : Option Entry :=
  match step1Newer store peer k with
  | some e => some e
  | none => step2Newer store peer k

/-- Spec-side definition, from the claim's words: last-write-wins merge
of the local and peer entry at one key (peer wins only when strictly
newer). -/
def lwwMergeSpec : Option Entry → Option Entry → Option Entry
  | none, none => none
  | none, some p => some p
  | some s, none => some s
  | some s, some p =>
    if s.last_update < p.last_update then
      some { value := p.value, last_update := p.last_update }
    else
      some s

/-- Spec-side definition, from the claim's words: the entry reported
back in self_newer at one key — the local entry when the key is shared
and the local entry is not older, or when the peer lacks the key. -/
def selfNewerSpec : Option Entry → Option Entry → Option Entry
  | some s, some p =>
    if s.last_update < p.last_update then none else some s
  | some s, none => some s
  | _, _ => none

/-- Spec-side definition: the pointwise maximum of the two sides'
last_update at one key. -/
def lastUpdateMax : Option Entry → Option Entry → Option Nat
  | none, none => none
  | none, some p => some p.last_update
  | some s, none => some s.last_update
  | some s, some p => some (max s.last_update p.last_update)

/-- Identity and placement tag of one node
(src/server_info/info.h ImmutableInfo, with the id used by gossip). -/
structure NodeInfo where
  id : String
  sql_addr : String
  grpc_addr : String
  data_dir : String
  region : String
deriving Repr, DecidableEq

/-- Peer selection of one gossip round (src/gossip/gossip.cc lines
194-224).  peer_addr starts empty; a non-empty seed_peer is always
taken; otherwise with more than one known node a random member of the
nodes-other-than-self list is taken (randIdx stands for the drawn value
of the uniform distribution over the list indices); an empty peer_addr
skips the round (modelled as none). -/
def pickPeer (seed_peer : String) (self : NodeInfo) (nodes : List NodeInfo)
    (randIdx : Nat) : Option String :=
  if seed_peer ≠ "" then
    some seed_peer
  else if nodes.length > 1 then
    if h : (nodes.filter (fun n => n.id ≠ self.id)).length ≠ 0 then
      some ((nodes.filter (fun n => n.id ≠ self.id)).get
        ⟨randIdx % (nodes.filter (fun n => n.id ≠ self.id)).length,
         Nat.mod_lt _ (Nat.pos_of_ne_zero h)⟩).grpc_addr
    else
      none
  else
    none

/-- Per-constraint-map membership query
(src/gossip/gossip.cc lines 266-284, free function get_nodes).  The
nodes known to the gossip server are filtered only by the hard-coded
"region" key: when the constraint map holds "region", nodes of a
different region are erased; every other constraint key is ignored. -/
def get_nodes (allNodes : List NodeInfo)
    (constraints : Option (List (String × String))) : List NodeInfo :=
  match constraints with
  | none => allNodes
  | some c =>
    match (c.find? (fun kv => kv.1 = "region")).map (fun kv => kv.2) with
    | some required_region =>
        allNodes.filter (fun n => n.region = required_region)
    | none => allNodes

/-- Spec-side definition, from the claim's words: the node field named
by a constraint key. -/
def nodeField (n : NodeInfo) : String → Option String
  | "id" => some n.id
  | "sql_addr" => some n.sql_addr
  | "grpc_addr" => some n.grpc_addr
  | "data_dir" => some n.data_dir
  | "region" => some n.region
  | _ => none

/-- Spec-side definition, from the claim's words: a node satisfies a
constraint map when every (key, value) pair matches the node's field of
that name. -/
def satisfiesAll (n : NodeInfo) (c : List (String × String)) : Prop :=
  ∀ kv ∈ c, nodeField n kv.1 = some kv.2

instance (n : NodeInfo) (c : List (String × String)) :
    Decidable (satisfiesAll n c) := by
  unfold satisfiesAll
  infer_instance

/-- A concrete node used to evaluate the gossip round model. -/
def selfNode : NodeInfo :=
  { id := "id-a", sql_addr := "127.0.0.1:5001",
    grpc_addr := "127.0.0.1:50001", data_dir := "./data/us", region := "us" }

/-- A second concrete node, distinct from selfNode. -/
def otherNode : NodeInfo :=
  { id := "id-b", sql_addr := "127.0.0.1:5002",
    grpc_addr := "127.0.0.1:50002", data_dir := "./data/eu", region := "eu" }

/-- Spec-side definition for the amended claim C5: the only filtering
the code performs — when the constraint map holds the key "region",
the node's region must equal the first such value. -/
def satisfiesRegionOnly (n : NodeInfo) (c : List (String × String)) :
    Prop :=
  ∀ req, (c.find? (fun kv => kv.1 = "region")).map (fun kv => kv.2)
      = some req → n.region = req

end Gossip

namespace TypeEnc

/-- The two logical column types (src/type/type.pb: enum Type). -/
inductive SType where
  | int64
  | string
deriving Repr, DecidableEq

/-- A typed value (src/type/type.pb: message Datum, value_case either
int64_value or string_value). -/
inductive Datum where
  | int64 (v : Int)
  | str (s : String)
deriving Repr, DecidableEq

/-- Decimal digit characters of a natural number, most significant
first, computed with explicit fuel so the recursion is structural;
natDecimalDigits below always supplies enough fuel. -/
def natDecimalDigitsAux (fuel n : Nat) : List Char :=
  match fuel with
  | 0 => []
  | fuel + 1 =>
    if n < 10 then
      [Nat.digitChar n]
    else
      natDecimalDigitsAux fuel (n / 10) ++ [Nat.digitChar (n % 10)]

/-- Decimal digit characters of a natural number, most significant
first — the digit production of std::to_string. -/
def natDecimalDigits (n : Nat) : List Char :=
  natDecimalDigitsAux (n + 1) n

/-- std::to_string on an int64_t value: minimal decimal digits,
preceded by a minus sign when negative. -/
def intToDecimal (v : Int) : String :=
  if v < 0 then
    "-" ++ String.mk (natDecimalDigits (-v).toNat)
  else
    String.mk (natDecimalDigits v.toNat)

/-- small::type::encode (src/type/type.cc lines 132-141): an INT64
datum becomes its decimal ASCII string via std::to_string, a STRING
datum is passed through unchanged. -/
def encode : Datum → String
  | .int64 v => intToDecimal v
  | .str s => s

/-- Smallest value of the C++ long long (int64_t). -/
def int64Min : Int := -(2 ^ 63)

/-- Largest value of the C++ long long (int64_t). -/
def int64Max : Int := 2 ^ 63 - 1

/-- Numeric value of a list of decimal digit characters. -/
def digitsToNat (ds : List Char) : Nat :=
  ds.foldl (fun a c => 10 * a + (c.toNat - 48)) 0

/-- The digit-consuming tail of std::stoll: the longest decimal digit
run is taken; no digit at all raises invalid_argument (none) and a
value outside the long long range raises out_of_range (none). -/
def stollDigits (cs : List Char) (neg : Bool) : Option Int :=
  let ds := cs.takeWhile Char.isDigit
  if ds.isEmpty then
    none
  else
    let v : Int := if neg then -(digitsToNat ds : Int) else (digitsToNat ds : Int)
    if v < int64Min ∨ int64Max < v then none else some v

/-- std::stoll on the character list of the input: optional leading
whitespace, an optional sign character, then at least one decimal
digit; trailing characters are ignored. -/
def stollChars (cs : List Char) : Option Int :=
  match cs.dropWhile Char.isWhitespace with
  | [] => none
  | c :: rest =>
    if c = '-' then stollDigits rest true
    else if c = '+' then stollDigits rest false
    else stollDigits (c :: rest) false

/-- std::stoll, as called by small::type::decode. -/
def stoll (s : String) : Option Int :=
  stollChars s.data

/-- small::type::decode (src/type/type.cc lines 143-163): INT64 parses
the string with std::stoll (an exception is modelled as none), STRING
wraps the bytes unchanged. -/
def decode (s : String) (t : SType) : Option Datum :=
  match t with
  | .int64 => (stoll s).map Datum.int64
  | .string => some (.str s)

end TypeEnc

namespace Schema

/-- A table column (src/schema/schema.h class Column and the
protobuf Column used by the catalog). -/
structure SColumn where
  name : String
  type : TypeEnc.SType
  is_primary_key : Bool
deriving Repr, DecidableEq

/-- One partition of a list partition
(src/schema/partition.h ListPartition::SinglePartition). -/
structure SinglePartition where
  values : List String
  constraints : List (String × String)
deriving Repr, DecidableEq

/-- A list partition (src/schema/partition.h ListPartition); the
partitions field keeps the map's iteration order. -/
structure ListPartition where
  column_name : String
  partitions : List (String × SinglePartition)
deriving Repr, DecidableEq

/-- ListPartition::lookup (src/schema/partition.cc lines 78-87): scan
the partitions in iteration order and return the first one whose values
set contains the probed value. -/
def ListPartition.lookup (lp : ListPartition) (value : String) :
    Option SinglePartition :=
  (lp.partitions.find? (fun p => p.2.values.contains value)).map
    (fun p => p.2)

/-- A table (src/schema/schema.h class Table): name, ordered columns,
and the partition variant NullPartition | ListPartition collapsed to an
Option. -/
structure STable where
  name : String
  columns : List SColumn
  partition : Option ListPartition
deriving Repr, DecidableEq

end Schema

namespace Rocks

open Schema TypeEnc

/-- The embedded KV store, modelled extensionally as a partial map from
byte-string keys to byte-string values. -/
def KVMap : Type := String → Option String

/-- RocksDBWrapper::Put for one cell: an idempotent overwrite. -/
def putCell (kv : KVMap) (key value : String) : KVMap :=
  fun k => if k = key then some value else kv k

/-- The index of the primary-key column
(rocks.cc lines 208-214: the first column with is_primary_key).  The
C++ leaves pk_index = -1 when no column is marked; indexing values with
it is then undefined behaviour, and every claim only exercises tables
that do have a primary key, where findIdx agrees with the loop. -/
def findPkIndex (cols : List SColumn) : Nat :=
  cols.findIdx (fun c => c.is_primary_key)

/-- RocksDBWrapper::WriteRow (src/rocks/rocks.cc lines 205-221): one
Put per column of the table, with key
"/" + table.name + "/" + encode(values[pk_index]) + "/column_" + i —
the third key segment is the literal string column_ followed by the
column index, via absl::StrFormat("/%s/%s/column_%d", ...).
small::encode::encode (src/encode/encode.cc lines 29-36) agrees with
small::type::encode: int64 via std::to_string, strings unchanged. -/
def writeRow (table : STable) (values : List Datum) :
    List (String × String) :=
  (List.range table.columns.length).map (fun i =>
    ("/" ++ table.name ++ "/"
       ++ encode (values.getD (findPkIndex table.columns) (.str ""))
       ++ "/column_" ++ String.mk (natDecimalDigits i),
     encode (values.getD i (.str ""))))

/-- Modelled from the spec: RocksDBWrapper::ReadTable is called by the
executor (src/executor/query.cc line 144) but its definition is absent
from the sources.  Spec §4.2: read_table scans the prefix
"/" + table_name + "/" and splits each key's remainder at the next "/"
into the pk and the column_name.  This helper splits one key. -/
def readTableCell (table_name key : String) : Option (String × String) :=
  let pfx := ("/" ++ table_name ++ "/").data
  if pfx.isPrefixOf key.data then
    let rest := key.data.drop pfx.length
    some (String.mk (rest.takeWhile (fun c => c ≠ '/')),
          String.mk ((rest.dropWhile (fun c => c ≠ '/')).drop 1))
  else
    none

/-- Modelled from the spec (continuation of readTableCell): the
column_name → encoded_value mapping that read_table produces for one
pk of one table, from a list of stored cells. -/
def rowColumns (cells : List (String × String)) (table_name pk : String) :
    List (String × String) :=
  cells.filterMap (fun kv =>
    match readTableCell table_name kv.1 with
    | some pc => if pc.1 = pk then some (pc.2, kv.2) else none
    | none => none)

/-- The per-row column check of the SELECT read path
(src/executor/query.cc lines 156-165): for every column of the table
the row map must contain a cell keyed by the column's name, otherwise
the query fails with InvalidArgument "column not found in json". -/
def selectRowCheck (table : STable) (row : List (String × String)) :
    Status :=
  if table.columns.all
      (fun c => (row.find? (fun kv => kv.1 = c.name)).isSome) then
    okStatus
  else
    { code := .invalidArgument, message := "column not found in json" }

/-- A one-column table used to evaluate the write/read paths: a single
INT64 primary-key column named id. -/
def tTable : STable :=
  { name := "t",
    columns := [{ name := "id", type := .int64, is_primary_key := true }],
    partition := none }

end Rocks

namespace Catalog

open Schema Rocks

/-- The in-memory catalog map plus the KV store backing it. -/
structure CatalogState where
  tables : String → Option STable
  kv : KVMap

/-- The empty catalog and empty KV store.  (The real bootstrap also
installs the two system-table schemas in the map; their presence is
irrelevant to the claims, which use user table names.) -/
def emptyCatalog : CatalogState :=
  { tables := fun _ => none, kv := fun _ => none }

/-- The fixed schema of system.tables
(src/catalog/catalog.cc lines 70-86). -/
def systemTables : STable :=
  { name := "system.tables",
    columns :=
      [{ name := "table_name", type := .string, is_primary_key := true },
       { name := "columns", type := .string, is_primary_key := false }],
    partition := none }

/-- The fixed schema of system.partitions
(src/catalog/catalog.cc lines 88-115). -/
def systemPartitions : STable :=
  { name := "system.partitions",
    columns :=
      [{ name := "table_name", type := .string, is_primary_key := false },
       { name := "partition_name", type := .string, is_primary_key := true },
       { name := "constraint", type := .string, is_primary_key := false },
       { name := "column_name", type := .string, is_primary_key := false },
       { name := "partition_value", type := .string,
         is_primary_key := false }],
    partition := none }

/-- The nlohmann serialisation of a protobuf Type value; the enum's
numeric values come from generated protobuf code that is not in the
sources, and no claim depends on the rendering. -/
def typeJsonNum : TypeEnc.SType → String
  | .int64 => "1"
  | .string => "2"

/-- The nlohmann serialisation of one column
(src/schema/schema.cc to_json; nlohmann objects serialise keys in
alphabetical order). -/
def columnJson (c : SColumn) : String :=
  "\x7b\"is_primary_key\":" ++ (if c.is_primary_key then "true" else "false")
    ++ ",\"name\":\"" ++ c.name ++ "\",\"type\":" ++ typeJsonNum c.type
    ++ "\x7d"

/-- The nlohmann serialisation of a column list. -/
def columnsJson (cols : List SColumn) : String :=
  "[" ++ String.intercalate "," (cols.map columnJson) ++ "]"

/-- The nlohmann serialisation of a string list. -/
def stringsJson (xs : List String) : String :=
  "[" ++ String.intercalate ","
    (xs.map (fun x => "\"" ++ x ++ "\"")) ++ "]"

/-- The nlohmann serialisation of a constraints map. -/
def constraintsJson (cs : List (String × String)) : String :=
  "\x7b" ++ String.intercalate ","
    (cs.map (fun kv => "\"" ++ kv.1 ++ "\":\"" ++ kv.2 ++ "\"")) ++ "\x7d"

/-- Modelled from the spec: the three-argument
RocksDBWrapper::WriteRow(table, pk, values) that
CatalogManager::UpdateTable calls (src/catalog/catalog.cc lines 189,
217) is absent from the sources; per spec §3/§6 the row is stored as
one cell per column under "/" + table_name + "/" + pk + "/" +
column_name. -/
def writeRowPk (kv : KVMap) (table : STable) (pk : String)
    (values : List String) : KVMap :=
  (List.range table.columns.length).foldl
    (fun m i =>
      putCell m
        ("/" ++ table.name ++ "/" ++ pk ++ "/"
          ++ ((table.columns.getD i
                { name := "", type := .string,
                  is_primary_key := false }).name))
        (values.getD i ""))
    kv

/-- The state mutation of CatalogManager::UpdateTable
(src/catalog/catalog.cc lines 174-224): install the table in the
in-memory map, write its row into system.tables (pk = table name,
values = name and the columns JSON), and for a list partition write
one row per partition into system.partitions. -/
def updateTableState (st : CatalogState) (table : STable) :
    CatalogState :=
  { tables := fun k => if k = table.name then some table else st.tables k,
    kv :=
      match table.partition with
      | some lp =>
          lp.partitions.foldl
            (fun m p =>
              writeRowPk m systemPartitions p.1
                [table.name, p.1, constraintsJson p.2.constraints,
                 lp.column_name, stringsJson p.2.values])
            (writeRowPk st.kv systemTables table.name
              [table.name, columnsJson table.columns])
      | none =>
          writeRowPk st.kv systemTables table.name
            [table.name, columnsJson table.columns] }

/-- CatalogManager::UpdateTable always returns OkStatus. -/
def updateTable (st : CatalogState) (table : STable) :
    CatalogState × Status :=
  (updateTableState st table, okStatus)

/-- CatalogManager::CreateTableLocal (src/catalog/catalog.cc lines
158-172): AlreadyExists when the name is present in the in-memory map,
otherwise build the table (no partition) and run UpdateTable. -/
def createTableLocal (st : CatalogState) (table_name : String)
    (columns : List SColumn) : CatalogState × Status :=
  if (st.tables table_name).isSome then
    (st, { code := .alreadyExists, message := "Table already exists" })
  else
    updateTable st { name := table_name, columns := columns,
                     partition := none }

/-- The size of the node map built by the zero-constraint get_nodes()
call in CreateTable: the known nodes keyed (and hence deduplicated)
by id. -/
def nodesMapSize (nodes : List Gossip.NodeInfo) : Nat :=
  (nodes.map (fun n => n.id)).dedup.length

/-- Result of CreateTable.  updateTableCalls records the peers
contacted through a Catalog.UpdateTable RPC — the source contacts
none. -/
structure CreateResult where
  state : CatalogState
  status : Status
  updateTableCalls : List String

/-- CatalogManager::CreateTable (src/catalog/catalog.cc lines 136-156):
create locally (surfacing a local failure), query the gossip
membership, and fail with Internal("not enough nodes") whenever the
node-map size differs from the hard-coded 3; otherwise return
OkStatus.  No UpdateTable RPC to any peer is issued on any path. -/
def createTable (st : CatalogState) (table_name : String)
    (columns : List SColumn) (nodes : List Gossip.NodeInfo) :
    CreateResult :=
  let r := createTableLocal st table_name columns
  if r.2.code ≠ .ok then
    { state := r.1, status := r.2, updateTableCalls := [] }
  else if nodesMapSize nodes ≠ 3 then
    { state := r.1,
      status := { code := .internal, message := "not enough nodes" },
      updateTableCalls := [] }
  else
    { state := r.1, status := okStatus, updateTableCalls := [] }

/-- An INT64 primary-key column named id. -/
def idColumn : SColumn :=
  { name := "id", type := .int64, is_primary_key := true }

/-- Four nodes with pairwise-distinct ids. -/
def fourNodes : List Gossip.NodeInfo :=
  [Gossip.selfNode, Gossip.otherNode,
   { Gossip.selfNode with id := "id-c" },
   { Gossip.selfNode with id := "id-d" }]

/-- Two nodes with distinct ids. -/
def twoNodes : List Gossip.NodeInfo :=
  [Gossip.selfNode, Gossip.otherNode]

/-- Three nodes with pairwise-distinct ids. -/
def threeNodes : List Gossip.NodeInfo :=
  [Gossip.selfNode, Gossip.otherNode,
   { Gossip.selfNode with id := "id-c" }]

/-- A catalog state that already holds the table public.t. -/
def tCatalogState : CatalogState :=
  { tables := fun k =>
      if k = "public.t" then
        some { name := "public.t", columns := [idColumn],
               partition := none }
      else
        none,
    kv := fun _ => none }

end Catalog

namespace Insert

open Schema TypeEnc

/-- small::server_registry::get_servers
(src/peers/server_registry.cc lines 105-136): a registered server
matches when none of the fixed constraint keys sql_address,
rpc_address, region disagree with it; any other constraint key is
ignored. -/
def get_servers (registry : List Gossip.NodeInfo)
    (constraints : List (String × String)) : List Gossip.NodeInfo :=
  registry.filter (fun server =>
    constraints.all (fun kv =>
      if kv.1 = "sql_address" then server.sql_addr == kv.2
      else if kv.1 = "rpc_address" then server.grpc_addr == kv.2
      else if kv.1 = "region" then server.region == kv.2
      else true))

/-- The partition value read from one values-row item
(src/insert/insert.cc line 97 reads a_const->sval->sval).  For a
non-string constant the C++ reads an unset union member — undefined
behaviour, modelled as the empty string; the claims only exercise
string-valued partition cells. -/
def constSval : Datum → String
  | .str s => s
  | .int64 _ => ""

/-- The partition value of one values-row at the partition column
index. -/
def rowValue (pcid : Nat) (row : List Datum) : String :=
  constSval (row.getD pcid (.str ""))

/-- The partition-column index scan of insert.cc lines 77-83: the
first position in the statement's column list whose name equals the
partition column (carrying the running index i). -/
def findColIdAux (cols : List String) (pc : String) (i : Nat) :
    Option Nat :=
  match cols with
  | [] => none
  | c :: rest => if c = pc then some i else findColIdAux rest pc (i + 1)

/-- The partition-column index in the statement's column list. -/
def findColId (cols : List String) (pc : String) : Option Nat :=
  findColIdAux cols pc 0

/-- Processing of one values-row (src/insert/insert.cc lines 92-154):
look the partition value up in the list partition
(Internal "partition not found for value v" when absent); resolve the
placement servers from the partition's constraints (Internal
"no server found…" for zero, "multiple servers found…" for more than
one); with exactly one server issue the Insert RPC, surfacing an RPC
failure as Internal.  none means the row was dispatched fine. -/
def rowStep (listP : ListPartition) (pcid : Nat)
    (registry : List Gossip.NodeInfo)
    (rpcErr : Gossip.NodeInfo → Option String) (row : List Datum) :
    Option Status :=
  match listP.lookup (rowValue pcid row) with
  | none =>
    some { code := .internal,
           message := "partition not found for value "
             ++ rowValue pcid row }
  | some part =>
    match get_servers registry part.constraints with
    | [] =>
      some { code := .internal,
             message := "no server found for partition "
               ++ rowValue pcid row }
    | [server] =>
      match rpcErr server with
      | none => none
      | some e =>
        some { code := .internal,
               message := "failed to insert row into server "
                 ++ server.grpc_addr ++ ": " ++ e }
    | _ :: _ :: _ =>
      some { code := .internal,
             message := "multiple servers found for partition "
               ++ rowValue pcid row }

/-- The row loop of insert.cc: rows are processed in order and the
first failing row's status is returned; OkStatus when every row was
dispatched. -/
def processRows (listP : ListPartition) (pcid : Nat)
    (registry : List Gossip.NodeInfo)
    (rpcErr : Gossip.NodeInfo → Option String) :
    List (List Datum) → Status
  | [] => okStatus
  | row :: rest =>
    match rowStep listP pcid registry rpcErr row with
    | some st => st
    | none => processRows listP pcid registry rpcErr rest

/-- small::insert::insert (src/insert/insert.cc lines 63-164):
Internal "table … not found" for an unknown table; for a table with a
list partition, Internal "partition column … not found" when the
partition column is missing from the statement's column list, then the
per-row processing; Unimplemented for a table without a partition. -/
def insertStmt (tableLookup : Option STable) (table_name : String)
    (cols : List String) (rows : List (List Datum))
    (registry : List Gossip.NodeInfo)
    (rpcErr : Gossip.NodeInfo → Option String) : Status :=
  match tableLookup with
  | none =>
    { code := .internal, message := "table " ++ table_name ++ " not found" }
  | some table =>
    match table.partition with
    | some listP =>
      match findColId cols listP.column_name with
      | none =>
        { code := .internal,
          message := "partition column " ++ listP.column_name
            ++ " not found" }
      | some pcid => processRows listP pcid registry rpcErr rows
    | none =>
      { code := .unimplemented,
        message := "insert into table " ++ table_name
          ++ " without partition is not supported yet" }

/-- A concrete partition accepting the value us, placed by
region = us. -/
def usPartition : SinglePartition :=
  { values := ["us"], constraints := [("region", "us")] }

/-- A concrete list partition over the region column. -/
def regionPartition : ListPartition :=
  { column_name := "region", partitions := [("t_us", usPartition)] }

/-- A concrete partitioned table. -/
def pTable : STable :=
  { name := "public.t",
    columns :=
      [{ name := "id", type := .int64, is_primary_key := true },
       { name := "region", type := .string, is_primary_key := false }],
    partition := some regionPartition }

/-- The same table without a partition. -/
def pTableNoPart : STable := { pTable with partition := none }

/-- Two registered nodes that both carry region us. -/
def usNodes2 : List Gossip.NodeInfo :=
  [Gossip.selfNode, { Gossip.otherNode with region := "us" }]

/-- An RPC stub that always succeeds. -/
def rpcAlwaysOk : Gossip.NodeInfo → Option String := fun _ => none

end Insert

namespace PgWire

/-- One server-to-client wire message, abstracted over its byte
framing (src/pg_wire/pg_wire.cc ServerMessage subclasses): the fields
each encoder writes into the frame. -/
inductive Msg where
  | authenticationOk
  | parameterStatus (key value : String)
  | backendKeyData (process_id secret_key : Int)
  | readyForQuery
  | rowDescription (fields : List (String × TypeEnc.SType))
  | dataRow (cells : List String)
  | commandComplete (tag : String)
  | emptyQueryResponse
  | errorResponse (severity message : String)
  | noSSLSupport
deriving Repr, DecidableEq

/-- The secret-key field of a BackendKeyData message. -/
def msgSecretKey : Msg → Option Int
  | .backendKeyData _ s => some s
  | _ => none

/-- BackendKeyData::encode (src/pg_wire/pg_wire.cc lines 364-377): the
process-id field is getpid(); the srand(time(nullptr)) call feeds the
unrelated rand() state, and the secret key is rand_r over the local
seed variable initialised to 42 on every call.  rand_r is libc code,
not part of this repository, so it is passed in as an arbitrary
function of the seed. -/
def backendKeyData (randr : Nat → Int) (pid : Int) : Msg :=
  .backendKeyData pid (randr 42)

/-- A query result batch: the arrow schema (field name and type) plus
the rows as text cells. -/
structure Batch where
  schema : List (String × TypeEnc.SType)
  rows : List (List String)
deriving Repr, DecidableEq

/-- send_batch (src/pg_wire/pg_wire.cc lines 444-451): one
RowDescription for the schema, one DataRow frame per row, then
CommandComplete — whose encoder writes the fixed command tag
"SELECT 0" (line 243) — then ReadyForQuery. -/
def send_batch (b : Batch) : List Msg :=
  [Msg.rowDescription b.schema] ++ b.rows.map Msg.dataRow
    ++ [Msg.commandComplete "SELECT 0", Msg.readyForQuery]

/-- send_empty_result (src/pg_wire/pg_wire.cc lines 453-458). -/
def send_empty_result : List Msg :=
  [Msg.emptyQueryResponse, Msg.readyForQuery]

/-- send_error (src/pg_wire/pg_wire.cc lines 460-465); the
ErrorResponse severity defaults to ERROR. -/
def send_error (message : String) : List Msg :=
  [Msg.errorResponse "ERROR" message, Msg.readyForQuery]

/-- The reply of handle_query for one statement
(src/server/server.cc lines 249-293): an error is sent as an
ErrorResponse + ReadyForQuery; a zero-row batch as EmptyQueryResponse
+ ReadyForQuery; otherwise send_batch. -/
def handleQueryResponse (result : Except String Batch) : List Msg :=
  match result with
  | .error e => send_error e
  | .ok batch =>
    if batch.rows.length = 0 then send_empty_result else send_batch batch

/-- A one-row result batch. -/
def batch1 : Batch := { schema := [("id", .int64)], rows := [["1"]] }

/-- A zero-row result batch. -/
def batch0 : Batch := { schema := [], rows := [] }

end PgWire

end SmallDB

namespace SmallDB

namespace Gossip

/-- Claim C1: for every call of update(peer_entries) and every key,
(1) the resulting store is the last-write-wins merge of the prior local
and peer entries — the peer entry is inserted when the key is absent
locally, overwrites value and last_update when strictly newer, and is
ignored otherwise; (2) self_newer holds exactly the local entries that
were not older than the peer entry for a shared key, together with every
local entry whose key is absent from peer_entries; (3) the stored
last_update equals the maximum of the prior local and peer last_update
for that key. -/
theorem gossip_update_lww (store peer : EntriesMap) (k : String) :
    updateStore store peer k = lwwMergeSpec (store k) (peer k) ∧
    updateSelfNewer store peer k = selfNewerSpec (store k) (peer k) ∧
    (updateStore store peer k).map Entry.last_update
      = lastUpdateMax (store k) (peer k) := by
  unfold updateStore updateSelfNewer step1Newer step2Newer step1Store
  unfold lwwMergeSpec selfNewerSpec lastUpdateMax
  rcases hs : store k with _ | s <;> rcases hp : peer k with _ | p <;>
    simp [hs, hp] <;>
    by_cases hlt : s.last_update < p.last_update <;>
    simp [hlt] <;> omega

/-- Claim C4 fails on the code: with a non-empty configured seed and a
peer set that already contains a second node besides the node itself,
the round still picks the seed address, not a random known peer — the
seed-only-when-singleton precondition of the claim is not checked. -/
theorem gossip_pick_peer_counterexample :
    pickPeer "127.0.0.1:50009" selfNode [selfNode, otherNode] 0
        = some "127.0.0.1:50009" ∧
    [selfNode, otherNode].filter (fun n => n.id ≠ selfNode.id)
        = [otherNode] ∧
    "127.0.0.1:50009" ≠ otherNode.grpc_addr := by
  refine ⟨by decide, by decide, by decide⟩

/-- Claim C4 (amended): in every gossip round the configured seed
address is picked whenever a non-empty seed was configured, regardless
of the peer set; only when no seed was configured and at least one
other node is known is the peer drawn from the known nodes excluding
the node itself; when no seed is configured and no other node is known
the round is skipped. -/
theorem gossip_pick_peer_amended (seed_peer : String) (self : NodeInfo)
    (nodes : List NodeInfo) (randIdx : Nat) :
    (seed_peer ≠ "" →
      pickPeer seed_peer self nodes randIdx = some seed_peer) ∧
    (seed_peer = "" → ∀ addr,
      pickPeer seed_peer self nodes randIdx = some addr →
      addr ∈ (nodes.filter (fun n => n.id ≠ self.id)).map
        NodeInfo.grpc_addr) ∧
    (seed_peer = "" → nodes.filter (fun n => n.id ≠ self.id) = [] →
      pickPeer seed_peer self nodes randIdx = none) := by
  refine ⟨fun hne => ?_, fun he addr haddr => ?_, fun he hfil => ?_⟩
  · simp [pickPeer, hne]
  · subst he
    unfold pickPeer at haddr
    rw [if_neg (by simp)] at haddr
    by_cases hlen : nodes.length > 1
    · rw [if_pos hlen] at haddr
      by_cases h0 : (nodes.filter (fun n => n.id ≠ self.id)).length ≠ 0
      · rw [dif_pos h0, Option.some_inj] at haddr
        subst haddr
        exact List.mem_map_of_mem _ (List.get_mem _ _ _)
      · rw [dif_neg h0] at haddr
        exact absurd haddr (by simp)
    · rw [if_neg hlen] at haddr
      exact absurd haddr (by simp)
  · subst he
    unfold pickPeer
    rw [if_neg (by simp)]
    by_cases hlen : nodes.length > 1
    · rw [if_pos hlen, dif_neg (by rw [hfil]; simp)]
    · rw [if_neg hlen]

/-- Witness for the amended claim C4 at concrete inputs: a configured
seed is picked, a random pick lands among the other known nodes, and a
seedless round with no other node is skipped. -/
theorem gossip_pick_peer_amended_witness :
    pickPeer "127.0.0.1:50009" selfNode [selfNode] 0
        = some "127.0.0.1:50009" ∧
    "127.0.0.1:50002" ∈
      ([selfNode, otherNode].filter (fun n => n.id ≠ selfNode.id)).map
        NodeInfo.grpc_addr ∧
    pickPeer "" selfNode [selfNode] 0 = none :=
  ⟨(gossip_pick_peer_amended "127.0.0.1:50009" selfNode [selfNode] 0).1
      (by decide),
   (gossip_pick_peer_amended "" selfNode [selfNode, otherNode] 0).2.1
      rfl "127.0.0.1:50002" (by decide),
   (gossip_pick_peer_amended "" selfNode [selfNode] 0).2.2
      rfl (by decide)⟩

/-- Claim C5 fails on the code: a constraint map whose key is not
"region" is ignored entirely — a node whose id differs from an id
constraint is still returned by get_nodes. -/
theorem gossip_get_nodes_counterexample :
    get_nodes [otherNode] (some [("id", "someone-else")]) = [otherNode] ∧
    ¬ satisfiesAll otherNode [("id", "someone-else")] := by
  refine ⟨by decide, by decide⟩

/-- Claim C5 (amended): get_nodes applies equality filtering only for
the hard-coded constraint key "region": a currently-known node is
included iff its region matches the "region" constraint when one is
present; every other constraint key is ignored, and with no constraint
map every known node is returned. -/
theorem gossip_get_nodes_amended (allNodes : List NodeInfo)
    (c : List (String × String)) (n : NodeInfo) :
    (n ∈ get_nodes allNodes (some c) ↔
      n ∈ allNodes ∧ satisfiesRegionOnly n c) ∧
    get_nodes allNodes none = allNodes := by
  constructor
  · unfold get_nodes satisfiesRegionOnly
    rcases hfind : (c.find? (fun kv => kv.1 = "region")).map
        (fun kv => kv.2) with _ | req
    · simp [hfind]
    · simp [hfind, List.mem_filter]
  · rfl

/-- Witness for the amended claim C5 at a concrete input: a node whose
region matches the region constraint is returned. -/
theorem gossip_get_nodes_amended_witness :
    otherNode ∈ get_nodes [selfNode, otherNode] (some [("region", "eu")]) :=
  ((gossip_get_nodes_amended [selfNode, otherNode] [("region", "eu")]
      otherNode).1).mpr
    ⟨by decide, fun req h => by
      have h2 : some "eu" = some req := h
      rw [(Option.some_inj.mp h2).symm]
      rfl⟩

end Gossip

namespace TypeEnc

theorem digitChar_isDigit (d : Nat) (h : d < 10) :
    (Nat.digitChar d).isDigit = true := by
  interval_cases d <;> decide

theorem digitChar_toNat (d : Nat) (h : d < 10) :
    (Nat.digitChar d).toNat - 48 = d := by
  interval_cases d <;> decide

theorem isDigit_isWhitespace (c : Char) (h : c.isDigit = true) :
    c.isWhitespace = false := by
  cases hw : c.isWhitespace
  · rfl
  · exfalso
    simp [Char.isWhitespace] at hw
    rcases hw with ((h1 | h1) | h1) | h1 <;> subst h1 <;>
      exact absurd h (by decide)

theorem isDigit_ne_minus (c : Char) (h : c.isDigit = true) : c ≠ '-' := by
  rintro rfl
  exact absurd h (by decide)

theorem isDigit_ne_plus (c : Char) (h : c.isDigit = true) : c ≠ '+' := by
  rintro rfl
  exact absurd h (by decide)

theorem natDecimalDigitsAux_ne_nil (fuel n : Nat) (h : n < fuel) :
    natDecimalDigitsAux fuel n ≠ [] := by
  match fuel with
  | f + 1 =>
    unfold natDecimalDigitsAux
    split <;> simp

theorem natDecimalDigitsAux_isDigit (fuel : Nat) :
    ∀ n, n < fuel → ∀ c ∈ natDecimalDigitsAux fuel n, c.isDigit = true := by
  induction fuel with
  | zero => omega
  | succ f ih =>
    intro n hn c hc
    unfold natDecimalDigitsAux at hc
    split at hc
    · rename_i h10
      simp at hc
      subst hc
      exact digitChar_isDigit n h10
    · rename_i h10
      rw [List.mem_append] at hc
      rcases hc with hc | hc
      · exact ih (n / 10) (by omega) c hc
      · simp at hc
        subst hc
        exact digitChar_isDigit _ (Nat.mod_lt _ (by omega))

theorem digitsToNat_append_digit (ds : List Char) (c : Char) :
    digitsToNat (ds ++ [c]) = 10 * digitsToNat ds + (c.toNat - 48) := by
  unfold digitsToNat
  rw [List.foldl_append]
  rfl

theorem digitsToNat_natDecimalDigitsAux (fuel : Nat) :
    ∀ n, n < fuel → digitsToNat (natDecimalDigitsAux fuel n) = n := by
  induction fuel with
  | zero => omega
  | succ f ih =>
    intro n hn
    unfold natDecimalDigitsAux
    split
    · rename_i h10
      unfold digitsToNat
      simp only [List.foldl_cons, List.foldl_nil]
      have := digitChar_toNat n h10
      omega
    · rename_i h10
      rw [digitsToNat_append_digit, ih (n / 10) (by omega)]
      have := digitChar_toNat (n % 10) (Nat.mod_lt _ (by omega))
      omega

theorem stollDigits_of_digits (cs : List Char) (hne : cs ≠ [])
    (hall : ∀ c ∈ cs, c.isDigit = true) (neg : Bool) :
    stollDigits cs neg =
      (if (if neg then -(digitsToNat cs : Int) else (digitsToNat cs : Int))
            < int64Min ∨
          int64Max <
            (if neg then -(digitsToNat cs : Int) else (digitsToNat cs : Int))
        then none
        else some (if neg then -(digitsToNat cs : Int)
                   else (digitsToNat cs : Int))) := by
  unfold stollDigits
  rw [List.takeWhile_eq_self_iff.mpr hall]
  rw [if_neg (by simp [hne])]

theorem stollDigits_digits_true (cs : List Char) (hne : cs ≠ [])
    (hall : ∀ c ∈ cs, c.isDigit = true) :
    stollDigits cs true =
      if -(digitsToNat cs : Int) < int64Min ∨
          int64Max < -(digitsToNat cs : Int) then
        none
      else
        some (-(digitsToNat cs : Int)) := by
  rw [stollDigits_of_digits cs hne hall true]
  simp

theorem stollDigits_digits_false (cs : List Char) (hne : cs ≠ [])
    (hall : ∀ c ∈ cs, c.isDigit = true) :
    stollDigits cs false =
      if (digitsToNat cs : Int) < int64Min ∨
          int64Max < (digitsToNat cs : Int) then
        none
      else
        some (digitsToNat cs : Int) := by
  rw [stollDigits_of_digits cs hne hall false]
  simp

theorem stollChars_neg (ds : List Char) :
    stollChars ('-' :: ds) = stollDigits ds true := by
  unfold stollChars
  rw [List.dropWhile_cons, if_neg (by decide)]
  show (if ('-' : Char) = '-' then stollDigits ds true
        else if ('-' : Char) = '+' then stollDigits ds false
        else stollDigits ('-' :: ds) false) = stollDigits ds true
  rw [if_pos rfl]

theorem stollChars_nosign (c : Char) (rest : List Char)
    (hc : c.isDigit = true) :
    stollChars (c :: rest) = stollDigits (c :: rest) false := by
  unfold stollChars
  rw [List.dropWhile_cons,
    if_neg (by rw [isDigit_isWhitespace c hc]; simp)]
  show (if c = '-' then stollDigits rest true
        else if c = '+' then stollDigits rest false
        else stollDigits (c :: rest) false) = stollDigits (c :: rest) false
  rw [if_neg (isDigit_ne_minus c hc), if_neg (isDigit_ne_plus c hc)]

theorem natDecimalDigits_ne_nil (n : Nat) : natDecimalDigits n ≠ [] :=
  natDecimalDigitsAux_ne_nil _ _ (Nat.lt_succ_self _)

theorem natDecimalDigits_isDigit (n : Nat) :
    ∀ c ∈ natDecimalDigits n, c.isDigit = true :=
  natDecimalDigitsAux_isDigit _ _ (Nat.lt_succ_self _)

theorem digitsToNat_natDecimalDigits (n : Nat) :
    digitsToNat (natDecimalDigits n) = n :=
  digitsToNat_natDecimalDigitsAux _ _ (Nat.lt_succ_self _)

theorem stoll_intToDecimal (v : Int) (h1 : int64Min ≤ v)
    (h2 : v ≤ int64Max) : stoll (intToDecimal v) = some v := by
  have hpow : (2 : Int) ^ 63 = 9223372036854775808 := by norm_num
  have h1a : -9223372036854775808 ≤ v := by
    have h := h1
    unfold int64Min at h
    rw [hpow] at h
    omega
  have h2a : v ≤ 9223372036854775807 := by
    have h := h2
    unfold int64Max at h
    rw [hpow] at h
    omega
  unfold stoll intToDecimal
  by_cases hv : v < 0
  · rw [if_pos hv]
    have hdata : ("-" ++ String.mk (natDecimalDigits (-v).toNat)).data
        = '-' :: natDecimalDigits (-v).toNat := by
      simp
    rw [hdata, stollChars_neg,
      stollDigits_digits_true _ (natDecimalDigits_ne_nil _)
        (natDecimalDigits_isDigit _),
      digitsToNat_natDecimalDigits]
    have hcast : ((-v).toNat : Int) = -v := Int.toNat_of_nonneg (by omega)
    rw [hcast, neg_neg]
    rw [if_neg (by unfold int64Min int64Max; rw [hpow]; omega)]
  · rw [if_neg hv]
    have hne := natDecimalDigits_ne_nil v.toNat
    have hall := natDecimalDigits_isDigit v.toNat
    rcases hds : natDecimalDigits v.toNat with _ | ⟨c, rest⟩
    · exact absurd hds hne
    · rw [hds] at hall
      have hstr : (String.mk (c :: rest)).data = c :: rest := rfl
      rw [hstr, stollChars_nosign c rest (hall c (by simp)),
        stollDigits_digits_false _ (by simp) hall]
      rw [← hds, digitsToNat_natDecimalDigits]
      have hcast : (v.toNat : Int) = v := Int.toNat_of_nonneg (by omega)
      rw [hcast]
      rw [if_neg (by unfold int64Min int64Max; rw [hpow]; omega)]

/-- Claim C6 fails on the code: the INT64 round-trip does not hold for
every string matching -?[0-9]+ within 64-bit range — "00" matches and
decodes to 0, but re-encoding yields "0". -/
theorem type_encode_decode_counterexample :
    (decode "00" SType.int64).map encode = some "0" ∧
    ("0" : String) ≠ "00" := by
  refine ⟨by decide, by decide⟩

/-- Claim C6 (amended): the INT64 round-trip
encode(decode(s, INT64)) = s holds for every string s that is the
canonical decimal representation (minus sign for negatives, no
superfluous leading zeros, no "-0") of a value within signed 64-bit
range — equivalently for s = std::to_string(v) with int64Min ≤ v ≤
int64Max; and encode(decode(s, STRING)) = s holds for every byte
string s. -/
theorem type_encode_decode_amended (v : Int) (s : String)
    (h1 : int64Min ≤ v) (h2 : v ≤ int64Max) :
    (decode (intToDecimal v) SType.int64).map encode
        = some (intToDecimal v) ∧
    (decode s SType.string).map encode = some s := by
  constructor
  · unfold decode
    rw [stoll_intToDecimal v h1 h2]
    rfl
  · rfl

/-- Witness for the amended claim C6 at concrete inputs: the canonical
string "-42" and the byte string "hello" both round-trip. -/
theorem type_encode_decode_amended_witness :
    (decode (intToDecimal (-42)) SType.int64).map encode
        = some (intToDecimal (-42)) ∧
    (decode "hello" SType.string).map encode = some "hello" :=
  type_encode_decode_amended (-42) "hello" (by decide) (by decide)

end TypeEnc

namespace Rocks

/-- Claim C2 evaluated at the failing input, the one-column table t
(single INT64 primary-key column id) and the row (1): WriteRow does
write exactly one cell per column, but its key's third segment is
"column_0" — the literal column_ followed by the column index — not
the column's name "id"; the read_table row map therefore keys the cell
by "column_0", and the SELECT read path, which looks cells up by
column name, fails with "column not found in json" instead of finding
a cell for every column. -/
theorem rocks_write_read_mismatch :
    writeRow tTable [.int64 1] = [("/t/1/column_0", "1")] ∧
    rowColumns (writeRow tTable [.int64 1]) "t" "1"
        = [("column_0", "1")] ∧
    selectRowCheck tTable (rowColumns (writeRow tTable [.int64 1]) "t" "1")
        = { code := .invalidArgument,
            message := "column not found in json" } ∧
    ("column_0" : String) ≠ "id" := by
  refine ⟨by decide, by decide, by decide, by decide⟩

end Rocks

namespace Catalog

/-- Claim C3 fails on the code: with four known nodes — not fewer than
the expected cluster size of 3 — CreateTable still returns
Internal("not enough nodes"), because the source checks size != 3, not
size < 3 (and it issues no Catalog.UpdateTable RPC on any path). -/
theorem catalog_create_table_counterexample :
    (createTable emptyCatalog "public.t" [idColumn] fourNodes).status
        = { code := StatusCode.internal, message := "not enough nodes" } ∧
    nodesMapSize fourNodes = 4 ∧
    3 ≤ nodesMapSize fourNodes := by
  refine ⟨by decide, by decide, by decide⟩

theorem createTableLocal_present (st : CatalogState) (tn : String)
    (cols : List Schema.SColumn) (hx : (st.tables tn).isSome = true) :
    createTableLocal st tn cols =
      (st, { code := .alreadyExists, message := "Table already exists" }) := by
  unfold createTableLocal
  rw [if_pos hx]

theorem createTableLocal_absent (st : CatalogState) (tn : String)
    (cols : List Schema.SColumn) (hx : (st.tables tn).isSome = false) :
    createTableLocal st tn cols =
      (updateTableState st
        { name := tn, columns := cols, partition := none }, okStatus) := by
  unfold createTableLocal updateTable
  rw [if_neg (by rw [hx]; simp)]

theorem createTable_present_eq (st : CatalogState) (tn : String)
    (cols : List Schema.SColumn) (nodes : List Gossip.NodeInfo)
    (hx : (st.tables tn).isSome = true) :
    createTable st tn cols nodes =
      { state := st,
        status := { code := .alreadyExists,
                    message := "Table already exists" },
        updateTableCalls := [] } := by
  simp only [createTable, createTableLocal_present st tn cols hx]
  rfl

theorem createTable_absent_ne3 (st : CatalogState) (tn : String)
    (cols : List Schema.SColumn) (nodes : List Gossip.NodeInfo)
    (hx : (st.tables tn).isSome = false)
    (h3 : nodesMapSize nodes ≠ 3) :
    createTable st tn cols nodes =
      { state := updateTableState st
          { name := tn, columns := cols, partition := none },
        status := { code := .internal, message := "not enough nodes" },
        updateTableCalls := [] } := by
  simp only [createTable, createTableLocal_absent st tn cols hx]
  rw [if_neg (by simp [okStatus]), if_pos (by simp [h3])]

theorem createTable_absent_eq3 (st : CatalogState) (tn : String)
    (cols : List Schema.SColumn) (nodes : List Gossip.NodeInfo)
    (hx : (st.tables tn).isSome = false)
    (h3 : nodesMapSize nodes = 3) :
    createTable st tn cols nodes =
      { state := updateTableState st
          { name := tn, columns := cols, partition := none },
        status := okStatus,
        updateTableCalls := [] } := by
  simp only [createTable, createTableLocal_absent st tn cols hx]
  rw [if_neg (by simp [okStatus]), if_neg (by simp [h3])]

/-- Claim C3 (amended): CreateTable first creates the table locally and
surfaces a local AlreadyExists failure unchanged; otherwise it queries
the gossip membership and returns Internal("not enough nodes") exactly
when the number of known nodes differs from the hard-coded 3 (also
when more than 3 are present); with exactly 3 nodes it returns OK.  It
never calls Catalog.UpdateTable on any peer. -/
theorem catalog_create_table_amended (st : CatalogState) (tn : String)
    (cols : List Schema.SColumn) (nodes : List Gossip.NodeInfo) :
    ((st.tables tn).isSome = true →
      createTable st tn cols nodes =
        { state := st,
          status := { code := .alreadyExists,
                      message := "Table already exists" },
          updateTableCalls := [] }) ∧
    ((st.tables tn).isSome = false →
      ((createTable st tn cols nodes).status
          = { code := .internal, message := "not enough nodes" }
        ↔ nodesMapSize nodes ≠ 3)) ∧
    ((st.tables tn).isSome = false → nodesMapSize nodes = 3 →
      (createTable st tn cols nodes).status = okStatus) ∧
    (createTable st tn cols nodes).updateTableCalls = [] := by
  refine ⟨fun hx => createTable_present_eq st tn cols nodes hx,
    fun hx => ?_, fun hx h3 => ?_, ?_⟩
  · by_cases h3 : nodesMapSize nodes = 3
    · rw [createTable_absent_eq3 st tn cols nodes hx h3]
      constructor
      · intro hcontr
        exact absurd (congrArg Status.code hcontr) (by simp [okStatus])
      · intro hne
        exact absurd h3 hne
    · rw [createTable_absent_ne3 st tn cols nodes hx h3]
      simp [h3]
  · rw [createTable_absent_eq3 st tn cols nodes hx h3]
  · by_cases hx : (st.tables tn).isSome = true
    · rw [createTable_present_eq st tn cols nodes hx]
    · have hx2 : (st.tables tn).isSome = false := by
        cases hh : (st.tables tn).isSome
        · rfl
        · exact absurd hh hx
      by_cases h3 : nodesMapSize nodes = 3
      · rw [createTable_absent_eq3 st tn cols nodes hx2 h3]
      · rw [createTable_absent_ne3 st tn cols nodes hx2 h3]

/-- Witness for the amended claim C3 at concrete inputs: a duplicate
name surfaces AlreadyExists, four nodes trip the membership check
(4 ≠ 3), three nodes succeed, and no UpdateTable RPC is recorded. -/
theorem catalog_create_table_amended_witness :
    createTable tCatalogState "public.t" [idColumn] threeNodes =
      { state := tCatalogState,
        status := { code := .alreadyExists,
                    message := "Table already exists" },
        updateTableCalls := [] } ∧
    ((createTable emptyCatalog "public.t" [idColumn] fourNodes).status
        = { code := .internal, message := "not enough nodes" }
      ↔ nodesMapSize fourNodes ≠ 3) ∧
    (createTable emptyCatalog "public.t" [idColumn] threeNodes).status
        = okStatus ∧
    (createTable emptyCatalog "public.t" [idColumn]
        threeNodes).updateTableCalls = [] :=
  ⟨(catalog_create_table_amended tCatalogState "public.t" [idColumn]
      threeNodes).1 (by decide),
   (catalog_create_table_amended emptyCatalog "public.t" [idColumn]
      fourNodes).2.1 (by decide),
   (catalog_create_table_amended emptyCatalog "public.t" [idColumn]
      threeNodes).2.2.1 (by decide) (by decide),
   (catalog_create_table_amended emptyCatalog "public.t" [idColumn]
      threeNodes).2.2.2⟩

theorem writeRowPk_systemTables (kv : Rocks.KVMap) (pk a b : String) :
    writeRowPk kv systemTables pk [a, b]
      = Rocks.putCell
          (Rocks.putCell kv
            ("/system.tables/" ++ pk ++ "/" ++ "table_name") a)
          ("/system.tables/" ++ pk ++ "/" ++ "columns") b := rfl

theorem systemTables_key_ne (tn : String) :
    ("/system.tables/" ++ tn ++ "/" ++ "table_name")
      ≠ ("/system.tables/" ++ tn ++ "/" ++ "columns") := by
  intro he
  have hdq := congrArg String.data he
  simp only [String.data_append, List.append_assoc] at hdq
  have h2 := List.append_cancel_left hdq
  have h3 := List.append_cancel_left h2
  exact absurd h3 (by decide)

/-- Claim C9: CreateTable is not atomic on its membership failure —
whenever it returns Internal("not enough nodes"), the table is already
installed in the in-memory catalog map and its system.tables row is
already persisted in the KV store, and an identical CreateTable on the
same node then returns AlreadyExists. -/
theorem catalog_create_table_not_atomic (st : CatalogState) (tn : String)
    (cols : List Schema.SColumn) (nodes : List Gossip.NodeInfo)
    (h : (createTable st tn cols nodes).status
        = { code := .internal, message := "not enough nodes" }) :
    ((createTable st tn cols nodes).state.tables tn).isSome = true ∧
    (createTable st tn cols nodes).state.kv
        ("/system.tables/" ++ tn ++ "/" ++ "table_name") = some tn ∧
    (createTable (createTable st tn cols nodes).state tn cols
        nodes).status
      = { code := .alreadyExists, message := "Table already exists" } := by
  by_cases hx : (st.tables tn).isSome = true
  · exfalso
    rw [createTable_present_eq st tn cols nodes hx] at h
    exact absurd (congrArg Status.code h) (by simp)
  · have hx2 : (st.tables tn).isSome = false := by
      cases hh : (st.tables tn).isSome
      · rfl
      · exact absurd hh hx
    have hres : createTable st tn cols nodes =
        { state := updateTableState st
            { name := tn, columns := cols, partition := none },
          status := { code := .internal, message := "not enough nodes" },
          updateTableCalls := [] } := by
      have h3 : nodesMapSize nodes ≠ 3 := by
        intro h3
        rw [createTable_absent_eq3 st tn cols nodes hx2 h3] at h
        exact absurd (congrArg Status.code h) (by simp [okStatus])
      exact createTable_absent_ne3 st tn cols nodes hx2 h3
    rw [hres]
    refine ⟨?_, ?_, ?_⟩
    · show ((updateTableState st _).tables tn).isSome = true
      unfold updateTableState
      simp
    · show (updateTableState st _).kv _ = some tn
      unfold updateTableState
      show (writeRowPk st.kv systemTables tn
          [tn, columnsJson cols]) _ = some tn
      rw [writeRowPk_systemTables]
      unfold Rocks.putCell
      rw [if_neg (systemTables_key_ne tn), if_pos rfl]
    · have hx3 : ((updateTableState st
          { name := tn, columns := cols,
            partition := none }).tables tn).isSome = true := by
        unfold updateTableState
        simp
      simp only [createTable, createTableLocal_present _ tn cols hx3]
      rfl

/-- Witness for claim C9 at a concrete input: with two known nodes the
create fails with "not enough nodes", yet public.t is installed and
persisted, and a retry answers AlreadyExists. -/
theorem catalog_create_table_not_atomic_witness :
    ((createTable emptyCatalog "public.t" [idColumn]
        twoNodes).state.tables "public.t").isSome = true ∧
    (createTable emptyCatalog "public.t" [idColumn] twoNodes).state.kv
        ("/system.tables/" ++ "public.t" ++ "/" ++ "table_name")
      = some "public.t" ∧
    (createTable
        (createTable emptyCatalog "public.t" [idColumn] twoNodes).state
        "public.t" [idColumn] twoNodes).status
      = { code := .alreadyExists, message := "Table already exists" } :=
  catalog_create_table_not_atomic emptyCatalog "public.t" [idColumn]
    twoNodes (by decide)

end Catalog

namespace Insert

theorem findColIdAux_not_mem (cols : List String) (pc : String)
    (h : pc ∉ cols) : ∀ i, findColIdAux cols pc i = none := by
  induction cols with
  | nil => intro i; rfl
  | cons c rest ih =>
    intro i
    unfold findColIdAux
    rw [if_neg (by
      intro he
      exact h (by rw [← he]; exact List.mem_cons_self c rest))]
    exact ih (fun hm => h (List.mem_cons_of_mem c hm)) (i + 1)

theorem processRows_append_ok (listP : Schema.ListPartition) (pcid : Nat)
    (registry : List Gossip.NodeInfo)
    (rpcErr : Gossip.NodeInfo → Option String)
    (pref rows : List (List TypeEnc.Datum))
    (hp : ∀ p ∈ pref, rowStep listP pcid registry rpcErr p = none) :
    processRows listP pcid registry rpcErr (pref ++ rows)
      = processRows listP pcid registry rpcErr rows := by
  induction pref with
  | nil => rfl
  | cons r rest ih =>
    rw [List.cons_append]
    simp only [processRows]
    rw [hp r (List.mem_cons_self r rest)]
    exact ih (fun p hm => hp p (List.mem_cons_of_mem r hm))

theorem processRows_all_ok (listP : Schema.ListPartition) (pcid : Nat)
    (registry : List Gossip.NodeInfo)
    (rpcErr : Gossip.NodeInfo → Option String)
    (rows : List (List TypeEnc.Datum))
    (h : ∀ r ∈ rows, rowStep listP pcid registry rpcErr r = none) :
    processRows listP pcid registry rpcErr rows = okStatus := by
  induction rows with
  | nil => rfl
  | cons r rest ih =>
    simp only [processRows]
    rw [h r (List.mem_cons_self r rest)]
    exact ih (fun p hm => h p (List.mem_cons_of_mem r hm))

/-- Claim C8: INSERT error handling.  For a table carrying a list
partition: a statement column list without the partition column fails
with Internal "partition column … not found"; processing the
values-rows in order, a row whose partition value no partition's value
set contains fails the statement with Internal "partition not found
for value …", a row whose matching partition's constraints select no
registered server fails with Internal "no server found…", more than
one server with Internal "multiple servers found…"; when every row
dispatches to its single server the insert succeeds.  An INSERT into a
table without a partition returns Unimplemented. -/
theorem insert_error_handling (table_name : String)
    (table : Schema.STable) (listP : Schema.ListPartition)
    (cols : List String) (rows : List (List TypeEnc.Datum))
    (registry : List Gossip.NodeInfo)
    (rpcErr : Gossip.NodeInfo → Option String)
    (hpart : table.partition = some listP) :
    (listP.column_name ∉ cols →
      insertStmt (some table) table_name cols rows registry rpcErr
        = { code := .internal,
            message := "partition column " ++ listP.column_name
              ++ " not found" }) ∧
    (∀ pcid, findColId cols listP.column_name = some pcid →
      (∀ pref row rest, rows = pref ++ row :: rest →
        (∀ p ∈ pref, rowStep listP pcid registry rpcErr p = none) →
        (listP.lookup (rowValue pcid row) = none →
          insertStmt (some table) table_name cols rows registry rpcErr
            = { code := .internal,
                message := "partition not found for value "
                  ++ rowValue pcid row }) ∧
        (∀ part, listP.lookup (rowValue pcid row) = some part →
          (get_servers registry part.constraints = [] →
            insertStmt (some table) table_name cols rows registry rpcErr
              = { code := .internal,
                  message := "no server found for partition "
                    ++ rowValue pcid row }) ∧
          (∀ s1 s2 srest,
            get_servers registry part.constraints = s1 :: s2 :: srest →
            insertStmt (some table) table_name cols rows registry rpcErr
              = { code := .internal,
                  message := "multiple servers found for partition "
                    ++ rowValue pcid row }))) ∧
      ((∀ r ∈ rows, rowStep listP pcid registry rpcErr r = none) →
        insertStmt (some table) table_name cols rows registry rpcErr
          = okStatus)) ∧
    (∀ t2 : Schema.STable, t2.partition = none →
      insertStmt (some t2) table_name cols rows registry rpcErr
        = { code := .unimplemented,
            message := "insert into table " ++ table_name
              ++ " without partition is not supported yet" }) := by
  refine ⟨fun hnotin => ?_,
    fun pcid hfind =>
      ⟨fun pref row rest hrows hp =>
        ⟨fun hlook => ?_, fun part hlook => ⟨fun hserv => ?_,
          fun s1 s2 srest hserv => ?_⟩⟩,
       fun hall => ?_⟩,
    fun t2 hnp => ?_⟩
  · have hnone : findColId cols listP.column_name = none :=
      findColIdAux_not_mem cols listP.column_name hnotin 0
    simp only [insertStmt, hpart, hnone]
  · simp only [insertStmt, hpart, hfind, hrows]
    rw [processRows_append_ok listP pcid registry rpcErr pref
      (row :: rest) hp]
    simp only [processRows, rowStep, hlook]
  · simp only [insertStmt, hpart, hfind, hrows]
    rw [processRows_append_ok listP pcid registry rpcErr pref
      (row :: rest) hp]
    simp only [processRows, rowStep, hlook, hserv]
  · simp only [insertStmt, hpart, hfind, hrows]
    rw [processRows_append_ok listP pcid registry rpcErr pref
      (row :: rest) hp]
    simp only [processRows, rowStep, hlook, hserv]
  · simp only [insertStmt, hpart, hfind]
    exact processRows_all_ok listP pcid registry rpcErr rows hall
  · simp only [insertStmt, hnp]

/-- Witness for claim C8 at concrete inputs: each error branch and the
single-server success are exercised on the partitioned table
public.t. -/
theorem insert_error_handling_witness :
    insertStmt (some pTable) "public.t" ["id", "name"] [] [] rpcAlwaysOk
      = { code := .internal,
          message := "partition column " ++ "region" ++ " not found" } ∧
    insertStmt (some pTable) "public.t" ["region"]
        [[TypeEnc.Datum.str "jp"]] [] rpcAlwaysOk
      = { code := .internal,
          message := "partition not found for value "
            ++ rowValue 0 [TypeEnc.Datum.str "jp"] } ∧
    insertStmt (some pTable) "public.t" ["region"]
        [[TypeEnc.Datum.str "us"]] [] rpcAlwaysOk
      = { code := .internal,
          message := "no server found for partition "
            ++ rowValue 0 [TypeEnc.Datum.str "us"] } ∧
    insertStmt (some pTable) "public.t" ["region"]
        [[TypeEnc.Datum.str "us"]] usNodes2 rpcAlwaysOk
      = { code := .internal,
          message := "multiple servers found for partition "
            ++ rowValue 0 [TypeEnc.Datum.str "us"] } ∧
    insertStmt (some pTable) "public.t" ["region"]
        [[TypeEnc.Datum.str "us"]] [Gossip.selfNode] rpcAlwaysOk
      = okStatus ∧
    insertStmt (some pTableNoPart) "public.t" ["region"]
        [[TypeEnc.Datum.str "us"]] [] rpcAlwaysOk
      = { code := .unimplemented,
          message := "insert into table " ++ "public.t"
            ++ " without partition is not supported yet" } :=
  ⟨(insert_error_handling "public.t" pTable regionPartition
      ["id", "name"] [] [] rpcAlwaysOk rfl).1 (by decide),
   ((insert_error_handling "public.t" pTable regionPartition
      ["region"] [[TypeEnc.Datum.str "jp"]] [] rpcAlwaysOk rfl).2.1
      0 (by decide)).1 [] [TypeEnc.Datum.str "jp"] [] rfl
      (by simp) |>.1 (by decide),
   (((insert_error_handling "public.t" pTable regionPartition
      ["region"] [[TypeEnc.Datum.str "us"]] [] rpcAlwaysOk rfl).2.1
      0 (by decide)).1 [] [TypeEnc.Datum.str "us"] [] rfl
      (by simp) |>.2 usPartition (by decide)).1 (by decide),
   (((insert_error_handling "public.t" pTable regionPartition
      ["region"] [[TypeEnc.Datum.str "us"]] usNodes2 rpcAlwaysOk
      rfl).2.1 0 (by decide)).1 [] [TypeEnc.Datum.str "us"] [] rfl
      (by simp) |>.2 usPartition (by decide)).2 Gossip.selfNode
      { Gossip.otherNode with region := "us" } [] (by decide),
   ((insert_error_handling "public.t" pTable regionPartition
      ["region"] [[TypeEnc.Datum.str "us"]] [Gossip.selfNode]
      rpcAlwaysOk rfl).2.1 0 (by decide)).2 (by decide),
   (insert_error_handling "public.t" pTable regionPartition
      ["region"] [[TypeEnc.Datum.str "us"]] [] rpcAlwaysOk rfl).2.2
      pTableNoPart rfl⟩

end Insert


namespace PgWire

/-- Claim C7 fails on the code: for a successful one-row result the
server does send RowDescription, DataRow, CommandComplete,
ReadyForQuery in order, but the command tag is the hard-coded
"SELECT 0", not "SELECT 1". -/
theorem pg_wire_counterexample :
    handleQueryResponse (Except.ok batch1)
      = [Msg.rowDescription [("id", .int64)], Msg.dataRow ["1"],
         Msg.commandComplete "SELECT 0", Msg.readyForQuery] ∧
    ("SELECT 0" : String) ≠ "SELECT 1" := by
  refine ⟨by decide, by decide⟩

/-- Claim C7 (amended): for a successfully executed statement whose
result batch has N > 0 rows the wire server sends, in order,
RowDescription, one DataRow per row, CommandComplete with the fixed
command tag "SELECT 0" (regardless of N), and ReadyForQuery; a
zero-row result is sent as EmptyQueryResponse + ReadyForQuery; an
error as ErrorResponse(severity ERROR) + ReadyForQuery. -/
theorem pg_wire_amended (b : Batch) (e : String) :
    (b.rows.length ≠ 0 →
      handleQueryResponse (Except.ok b)
        = [Msg.rowDescription b.schema] ++ b.rows.map Msg.dataRow
          ++ [Msg.commandComplete "SELECT 0", Msg.readyForQuery]) ∧
    (b.rows.length = 0 →
      handleQueryResponse (Except.ok b)
        = [Msg.emptyQueryResponse, Msg.readyForQuery]) ∧
    handleQueryResponse (Except.error e)
      = [Msg.errorResponse "ERROR" e, Msg.readyForQuery] := by
  refine ⟨fun hne => ?_, fun he => ?_, rfl⟩
  · simp only [handleQueryResponse, if_neg hne]
    rfl
  · simp only [handleQueryResponse, if_pos he]
    rfl

/-- Witness for the amended claim C7 at concrete batches: one row, no
rows, and an error. -/
theorem pg_wire_amended_witness :
    handleQueryResponse (Except.ok batch1)
      = [Msg.rowDescription batch1.schema]
        ++ batch1.rows.map Msg.dataRow
        ++ [Msg.commandComplete "SELECT 0", Msg.readyForQuery] ∧
    handleQueryResponse (Except.ok batch0)
      = [Msg.emptyQueryResponse, Msg.readyForQuery] ∧
    handleQueryResponse (Except.error "table not found: nope.nope")
      = [Msg.errorResponse "ERROR" "table not found: nope.nope",
         Msg.readyForQuery] :=
  ⟨(pg_wire_amended batch1 "").1 (by decide),
   (pg_wire_amended batch0 "").2.1 (by decide),
   (pg_wire_amended batch0 "table not found: nope.nope").2.2⟩

/-- Claim C10: the secret key of every BackendKeyData message is
rand_r's first output on the constant seed 42, so any two accepted
connections — in one process or in different processes running the
same libc — receive the same secret key, and the two messages can
differ at most in the process-id field. -/
theorem backend_key_data_constant_secret (randr : Nat → Int)
    (p1 p2 : Int) :
    backendKeyData randr p1 = Msg.backendKeyData p1 (randr 42) ∧
    msgSecretKey (backendKeyData randr p1)
      = msgSecretKey (backendKeyData randr p2) := by
  exact ⟨rfl, rfl⟩

end PgWire

end SmallDB
